import Mathlib

/-!
Verification development for the grocery-compare repository's
Hybrid Product Search & Retrieval Engine specification.

The data model (`Product`, `ProductList`, `FilterOptions`) is translated from
frontend/src/lib/types.ts; the client-side handlers are translated from
frontend/src/app/page.tsx and frontend/src/app/store/[store]/[category]/page.tsx.
The engine itself (embedding, vector and lexical candidate sources, score
fusion, fallback controller, pagination/sort stage, result hydrator) has no
source under the repository snapshot, so it is modelled from the specification
text, as marked on each definition.

Strings are represented by Lean's `String`; all case folding and substring
operations are defined over the underlying character lists so that concrete
instances evaluate by kernel reduction.  Scores and numeric prices are
rationals (the engine only compares and linearly combines them).
-/

/-- ASCII-style case folding over a character list (models `.toLowerCase()` /
SQL `LOWER`-style case-insensitive comparison used throughout the engine). -/
def lowerChars (l : List Char) : List Char := l.map Char.toLower

/-- `isPrefixChars n h` holds when `n` is a prefix of `h` (character lists). -/
def isPrefixChars : List Char → List Char → Bool
  | [], _ => true
  | _ :: _, [] => false
  | a :: as, b :: bs => a == b && isPrefixChars as bs

/-- `containsSub n h`: the character list `n` occurs contiguously inside `h`.
This is the substring predicate of the Degraded path. -/
def containsSub (needle : List Char) : List Char → Bool
  | [] => needle.isEmpty
  | c :: t => isPrefixChars needle (c :: t) || containsSub needle t

/-- A query text is blank when it is empty or whitespace-only (the engine's
empty-query short-circuit tests the trimmed text). -/
def isBlankChars (l : List Char) : Bool := l.all Char.isWhitespace

/-- Total lexicographic comparison of character lists by code point, used for
the `name` sort mode. -/
def charListLe : List Char → List Char → Bool
  | [], _ => true
  | _ :: _, [] => false
  | a :: as, b :: bs => a.toNat < b.toNat || (a.toNat == b.toNat && charListLe as bs)

/-- Product record, translated from `Product` in frontend/src/lib/types.ts
(id, name, price, price_numeric, brand, size, category, store, product_url,
image_url, last_scraped, created_at, updated_at).  The nullable numeric price
is an `Option ℚ`. -/
structure Product where
  id : Nat
  name : String
  price : String
  price_numeric : Option ℚ
  brand : Option String
  size : Option String
  category : String
  store : String
  product_url : Option String
  image_url : Option String
  last_scraped : Option String
  created_at : String
  updated_at : String
deriving DecidableEq

/-- Paginated response, translated from `ProductList` in
frontend/src/lib/types.ts: ordered product list, pre-pagination total,
current page, total pages, page size. -/
structure ProductList where
  products : List Product
  total : Nat
  page : Nat
  pages : Nat
  limit : Nat
deriving DecidableEq

/-- Modelled from the spec: sort mode of a search request,
`relevance | name | price_low | price_high` (section 3, "Query"). -/
inductive SortMode where
  | relevance
  | byName
  | priceLow
  | priceHigh

/-- Modelled from the spec: the structural filters `{store?, category?, brand?}`. -/
structure Filters where
  store : Option String
  category : Option String
  brand : Option String

/-- Modelled from the spec: an inbound search request: free-text query
(possibly empty), structural filters, sort mode, 1-based page, page size. -/
structure Query where
  search : String
  store : Option String
  category : Option String
  brand : Option String
  sort : SortMode
  page : Nat
  limit : Nat

/-- The structural filters of a request. -/
def Query.filters (q : Query) : Filters :=
  { store := q.store, category := q.category, brand := q.brand }

/-- Modelled from the spec: operator configuration knobs — fusion weight
alpha, candidate cap K, relevance threshold (section 6). -/
structure Config where
  alpha : ℚ
  k : Nat
  threshold : ℚ

/-- Modelled from the spec: documented defaults alpha = 0.5, K = 50,
threshold = 0.6. -/
def defaultConfig : Config := { alpha := 1 / 2, k := 50, threshold := 3 / 5 }

/-- Case-insensitive exact match of an optional filter value against a
required text field (absent filter matches everything). -/
def optEq (f : Option String) (v : String) : Bool :=
  match f with
  | none => true
  | some s => lowerChars s.data == lowerChars v.data

/-- Case-insensitive exact match of an optional filter value against a
nullable text field (a set brand filter never matches a null brand). -/
def optEqOpt (f : Option String) (v : Option String) : Bool :=
  match f with
  | none => true
  | some s =>
    match v with
    | none => false
    | some t => lowerChars s.data == lowerChars t.data

/-- Modelled from the spec: a product passes the structural filters — exact
match on store/category/brand, case-insensitive (section 6). -/
def matchesFilters (f : Filters) (p : Product) : Bool :=
  optEq f.store p.store && optEq f.category p.category && optEqOpt f.brand p.brand

/-- Modelled from the spec: the Degraded path's predicate — case-insensitive
substring match of the raw query against product name or brand (section 4.5). -/
def substrMatch (q : String) (p : Product) : Bool :=
  containsSub (lowerChars q.data) (lowerChars p.name.data) ||
    (match p.brand with
     | none => false
     | some b => containsSub (lowerChars q.data) (lowerChars b.data))

/-- Modelled from the spec: the empty-query listing — the filtered corpus,
every candidate carrying the neutral score 1 (section 3, Query invariant). -/
def plainCandidates (catalog : List Product) (f : Filters) : List (Product × ℚ) :=
  (catalog.filter (fun p => matchesFilters f p)).map (fun p => (p, 1))

/-- Modelled from the spec: the Degraded path's candidates — substring matches
within the structural filters, every match treated as fused score 1.0
(section 4.5). -/
def degradedCandidates (catalog : List Product) (f : Filters) (q : String) :
    List (Product × ℚ) :=
  (catalog.filter (fun p => matchesFilters f p && substrMatch q p)).map (fun p => (p, 1))

/-- Minimum of a score list (0 on the empty list, which is never normalized). -/
def listMin : List ℚ → ℚ
  | [] => 0
  | x :: xs => xs.foldl min x

/-- Maximum of a score list (0 on the empty list, which is never normalized). -/
def listMax : List ℚ → ℚ
  | [] => 0
  | x :: xs => xs.foldl max x

/-- Modelled from the spec: min-max normalization of one candidate list's
scores over that list; a list whose scores span no range (in particular a
single-element list) normalizes to 1.0 (section 4.4). -/
def normalizeScores (cs : List (Nat × ℚ)) : List (Nat × ℚ) :=
  let mn := listMin (cs.map Prod.snd)
  let mx := listMax (cs.map Prod.snd)
  if mx = mn then cs.map (fun c => (c.1, 1))
  else cs.map (fun c => (c.1, (c.2 - mn) / (mx - mn)))

/-- Score of identifier `i` in a candidate list, 0 when absent (a missing
source contributes 0 to the fused score). -/
def lookupScore (cs : List (Nat × ℚ)) (i : Nat) : ℚ :=
  match cs.find? (fun c => c.1 == i) with
  | some c => c.2
  | none => 0

/-- The union of the identifiers appearing in either candidate list. -/
def unionIds (vec lex : List (Nat × ℚ)) : List Nat :=
  (vec.map Prod.fst ++ lex.map Prod.fst).dedup

/-- Modelled from the spec: score fusion — for the union of identifiers of
the two lists, `fused = alpha * vector_norm + (1 - alpha) * lexical_norm`,
each list min-max normalized independently, a missing source contributing 0
(section 4.4). -/
def fuseScores (alpha : ℚ) (vec lex : List (Nat × ℚ)) : List (Nat × ℚ) :=
  let vn := normalizeScores vec
  let ln := normalizeScores lex
  (unionIds vec lex).map (fun i => (i, alpha * lookupScore vn i + (1 - alpha) * lookupScore ln i))

/-- Modelled from the spec: the fused ranking order — descending fused score,
ties broken by ascending identifier (section 4.4). -/
def fusedRel (a b : Nat × ℚ) : Prop :=
  b.2 < a.2 ∨ (a.2 = b.2 ∧ a.1 ≤ b.1)

instance : DecidableRel fusedRel := fun a b => by unfold fusedRel; infer_instance

/-- Modelled from the spec: drop identifiers whose fused score is below the
threshold, then rank by descending fused score with ascending-identifier
tie-break (section 4.4). -/
def rankFused (threshold : ℚ) (fused : List (Nat × ℚ)) : List (Nat × ℚ) :=
  List.insertionSort fusedRel (fused.filter (fun c => decide (threshold ≤ c.2)))

/-- Modelled from the spec: result hydration — resolve identifiers into full
records preserving input order; an identifier with no record is silently
dropped (section 4.7). -/
def hydrate (catalog : List Product) (cands : List (Nat × ℚ)) : List (Product × ℚ) :=
  cands.filterMap (fun c => (catalog.find? (fun p => p.id == c.1)).map (fun p => (p, c.2)))

/-- Nulls-last comparison of nullable numeric prices: a missing price sorts
after every present price regardless of direction; present prices compare
ascending or descending according to `asc`. -/
def priceLe (asc : Bool) (a b : Option ℚ) : Prop :=
  match a, b with
  | none, none => True
  | none, some _ => False
  | some _, none => True
  | some x, some y => if asc then x ≤ y else y ≤ x

instance : ∀ asc a b, Decidable (priceLe asc a b) := fun asc a b => by
  unfold priceLe; rcases a with _ | x <;> rcases b with _ | y <;> infer_instance

/-- Order for the `name` sort mode: lexicographic on the product name. -/
def nameRel (a b : Product × ℚ) : Prop :=
  charListLe a.1.name.data b.1.name.data = true

instance : DecidableRel nameRel := fun a b => by unfold nameRel; infer_instance

/-- Order for the `price_low` sort mode: ascending numeric price, nulls last. -/
def priceAscRel (a b : Product × ℚ) : Prop :=
  priceLe true a.1.price_numeric b.1.price_numeric

instance : DecidableRel priceAscRel := fun a b => by unfold priceAscRel; infer_instance

/-- Order for the `price_high` sort mode: descending numeric price, nulls last. -/
def priceDescRel (a b : Product × ℚ) : Prop :=
  priceLe false a.1.price_numeric b.1.price_numeric

instance : DecidableRel priceDescRel := fun a b => by unfold priceDescRel; infer_instance

/-- Modelled from the spec: the Pagination/Sort stage's ordering — `relevance`
keeps the candidate order, the explicit modes re-sort the same candidate set
by their key with nulls last (section 4.6). -/
def sortCandidates (mode : SortMode) (cands : List (Product × ℚ)) : List (Product × ℚ) :=
  match mode with
  | .relevance => cands
  | .byName => List.insertionSort nameRel cands
  | .priceLow => List.insertionSort priceAscRel cands
  | .priceHigh => List.insertionSort priceDescRel cands

/-- Modelled from the spec: the Pagination/Sort stage — sort the candidate
set, slice by 1-based page and page size, and report the pre-pagination
`total` with `pages = ceil(total / limit)` (section 4.6).  `total` is the
search-time match count, computed before hydration can drop records. -/
def finishStage (mode : SortMode) (page limit total : Nat)
    (cands : List (Product × ℚ)) : ProductList :=
  { products := (((sortCandidates mode cands).drop ((page - 1) * limit)).take limit).map Prod.fst
    total := total
    page := page
    pages := (total + limit - 1) / limit
    limit := limit }

/-- Modelled from the spec: the whole engine (sections 4.1-4.7).  The three
external collaborators are parameters: `embed` (Embedding Generator, `none`
models `EmbeddingError`), `vecSearch` (Vector Candidate Source, `none` models
`VectorServiceError`), `lexSearch` (Lexical Candidate Source, always
available).  A blank query is a pure filtered/sorted listing; a failure of the
embedding or vector call sends this request down the Degraded substring path
with every match scored 1.0; otherwise the two candidate lists are fused,
thresholded, ranked, hydrated, and the shared Pagination/Sort stage finishes
either path identically. -/
def searchEngine (catalog : List Product) (embed : String → Option (List ℚ))
    (vecSearch : List ℚ → Filters → Option (List (Nat × ℚ)))
    (lexSearch : String → Filters → List (Nat × ℚ))
    (cfg : Config) (q : Query) : ProductList :=
  if isBlankChars q.search.data then
    let cands := plainCandidates catalog q.filters
    finishStage q.sort q.page q.limit cands.length cands
  else
    match embed q.search with
    | none =>
      let cands := degradedCandidates catalog q.filters q.search
      finishStage q.sort q.page q.limit cands.length cands
    | some v =>
      match vecSearch v q.filters with
      | none =>
        let cands := degradedCandidates catalog q.filters q.search
        finishStage q.sort q.page q.limit cands.length cands
      | some vecCands =>
        let lexCands := lexSearch q.search q.filters
        let ranked := rankFused cfg.threshold (fuseScores cfg.alpha vecCands lexCands)
        finishStage q.sort q.page q.limit ranked.length (hydrate catalog ranked)

/-- The sort-mode string values admitted by the `FilterOptions.sort` union
type in frontend/src/lib/types.ts: `'name' | 'price_low' | 'price_high'`. -/
def clientSortModes : List String := ["name", "price_low", "price_high"]

/-- Client-side request options, translated from `FilterOptions` in
frontend/src/lib/types.ts.  The `sort` field is kept as an optional string:
the page code assigns it through an untyped cast from the URL, and the
declared union values are recorded in `clientSortModes`. -/
structure FilterOptions where
  store : Option String
  category : Option String
  search : Option String
  brand : Option String
  sort : Option String
  page : Option Nat
  limit : Option Nat

/-- The initial category-page filters, translated from `initialFilters` in
frontend/src/app/store/[store]/[category]/page.tsx lines 23-30: store and
category from the route, search and sort from the URL parameters with
JavaScript falsy defaults (absent or empty search becomes undefined, absent
or empty sort becomes the string "name"), page from the URL defaulting to 1,
limit 30.  URL parameters are modelled as already-decoded optional values;
the page number arrives already parsed. -/
def initialFilters (store category : String) (searchP sortP : Option String)
    (pageP : Option Nat) : FilterOptions :=
  { store := some store
    category := some category
    search :=
      match searchP with
      | none => none
      | some s => if s = "" then none else some s
    brand := none
    sort := some
      (match sortP with
       | none => "name"
       | some s => if s = "" then "name" else s)
    page := some (pageP.getD 1)
    limit := some 30 }

/-- Category-page search handler, translated from `handleSearch` in
frontend/src/app/store/[store]/[category]/page.tsx lines 56-60: sets the
search text (empty becomes undefined) and resets the page to 1. -/
def handleSearchCategory (f : FilterOptions) (search : String) : FilterOptions :=
  { f with search := if search = "" then none else some search, page := some 1 }

/-- Category-page sort handler, translated from `handleSortChange` in
frontend/src/app/store/[store]/[category]/page.tsx lines 62-66: sets the sort
mode (falsy becomes "name") and resets the page to 1. -/
def handleSortChange (f : FilterOptions) (sort : String) : FilterOptions :=
  { f with sort := some (if sort = "" then "name" else sort), page := some 1 }

/-- Page-change handler, translated from `handlePageChange` in
frontend/src/app/store/[store]/[category]/page.tsx lines 68-71 (the homepage
handler at frontend/src/app/page.tsx lines 171-174 is identical): sets only
the page number. -/
def handlePageChange (f : FilterOptions) (newPage : Nat) : FilterOptions :=
  { f with page := some newPage }

/-- Homepage store handler, translated from `handleStoreChange` in
frontend/src/app/page.tsx lines 159-161: sets the store, clears the
category, and resets the page to 1. -/
def handleStoreChange (f : FilterOptions) (store : Option String) : FilterOptions :=
  { f with store := store, category := none, page := some 1 }

/-- Homepage category handler, translated from `handleCategoryChange` in
frontend/src/app/page.tsx lines 163-165: sets the category and resets the
page to 1. -/
def handleCategoryChange (f : FilterOptions) (category : Option String) : FilterOptions :=
  { f with category := category, page := some 1 }

/-- Homepage search handler, translated from `handleSearch` in
frontend/src/app/page.tsx lines 167-169: sets the search text (empty becomes
undefined) and resets the page to 1. -/
def handleSearchHome (f : FilterOptions) (search : String) : FilterOptions :=
  { f with search := if search = "" then none else some search, page := some 1 }

/-- Stated from the specification's words (section 4.4), for comparison with
the implementation's `normalizeScores`: the min-max-normalized score of
identifier `i` over candidate list `cs` — `(s - min) / (max - min)` over that
list, 1.0 when the list's scores span no range, 0 when `i` is missing. -/
def specMinMax (cs : List (Nat × ℚ)) (i : Nat) : ℚ :=
  match cs.find? (fun c => c.1 == i) with
  | none => 0
  | some c =>
    if listMax (cs.map Prod.snd) = listMin (cs.map Prod.snd) then 1
    else (c.2 - listMin (cs.map Prod.snd)) / (listMax (cs.map Prod.snd) - listMin (cs.map Prod.snd))

/-- A product record with the given searchable fields and empty display
fields, for concrete instances of the theorems below. -/
def mkProduct (id : Nat) (name : String) (priceN : Option ℚ)
    (brand : Option String) (category store : String) : Product :=
  { id := id, name := name, price := "", price_numeric := priceN,
    brand := brand, size := none, category := category, store := store,
    product_url := none, image_url := none, last_scraped := none,
    created_at := "", updated_at := "" }

/-- A small concrete catalog: three Dairy products (one with a null numeric
price) and one Bakery product. -/
def dairyCatalog : List Product :=
  [mkProduct 1 "Butter" (some 3) none "Dairy" "IGA",
   mkProduct 2 "Cheese" none none "Dairy" "IGA",
   mkProduct 3 "Milk" (some 2) (some "Dairy Farmers") "Dairy" "IGA",
   mkProduct 4 "Bread" (some 1) none "Bakery" "IGA"]

/-- Scenario B's request: empty query, category Dairy, sort price_low. -/
def scenarioBQuery : Query :=
  { search := "", store := none, category := some "Dairy", brand := none,
    sort := .priceLow, page := 1, limit := 30 }

/-- Scenario B's expected response over `dairyCatalog`: the three Dairy
products ascending by numeric price with the null-priced one last. -/
def scenarioBExpected : ProductList :=
  { products := [mkProduct 3 "Milk" (some 2) (some "Dairy Farmers") "Dairy" "IGA",
      mkProduct 1 "Butter" (some 3) none "Dairy" "IGA",
      mkProduct 2 "Cheese" none none "Dairy" "IGA"],
    total := 3, page := 1, pages := 1, limit := 30 }

/-- A concrete non-empty-query request (relevance sort, page 1, size 10). -/
def qMilk : Query :=
  { search := "Milk", store := none, category := none, brand := none,
    sort := .relevance, page := 1, limit := 10 }

/-- A concrete request whose page lies beyond the available range (page 9
with page size 1 over the four-product catalog). -/
def qBeyond : Query :=
  { search := "", store := none, category := none, brand := none,
    sort := .relevance, page := 9, limit := 1 }

/-- An embedding generator that always fails (`EmbeddingError`). -/
def embedNone : String → Option (List ℚ) := fun _ => none

/-- An embedding generator that always returns a fixed vector. -/
def embedOne : String → Option (List ℚ) := fun _ => some [1]

/-- A vector candidate source that always fails (`VectorServiceError`). -/
def vecNone : List ℚ → Filters → Option (List (Nat × ℚ)) := fun _ _ => none

/-- A vector candidate source that always returns one candidate. -/
def vecOne : List ℚ → Filters → Option (List (Nat × ℚ)) := fun _ _ => some [(1, 1)]

/-- A lexical candidate source that always returns no candidates. -/
def lexNone : String → Filters → List (Nat × ℚ) := fun _ _ => []

/-- A lexical candidate source that always returns one candidate. -/
def lexOne : String → Filters → List (Nat × ℚ) := fun _ _ => [(3, 2)]

theorem charListLe_total : ∀ x y : List Char, charListLe x y = true ∨ charListLe y x = true := by
  intro x
  induction x with
  | nil => intro y; left; rfl
  | cons a as ih =>
    intro y
    cases y with
    | nil => right; rfl
    | cons b bs =>
      rcases Nat.lt_trichotomy a.toNat b.toNat with h | h | h
      · left; simp [charListLe, h]
      · rcases ih bs with h2 | h2
        · left; simp [charListLe, h, h2]
        · right; simp [charListLe, h.symm, h2]
      · right; simp [charListLe, h]

theorem charListLe_trans : ∀ x y z : List Char,
    charListLe x y = true → charListLe y z = true → charListLe x z = true := by
  intro x
  induction x with
  | nil => intro y z _ _; rfl
  | cons a as ih =>
    intro y z hxy hyz
    cases y with
    | nil => simp [charListLe] at hxy
    | cons b bs =>
      cases z with
      | nil => simp [charListLe] at hyz
      | cons c cs =>
        simp only [charListLe, Bool.or_eq_true, Bool.and_eq_true, decide_eq_true_eq,
          beq_iff_eq] at hxy hyz ⊢
        rcases hxy with h1 | ⟨h1, h1r⟩ <;> rcases hyz with h2 | ⟨h2, h2r⟩
        · exact Or.inl (h1.trans h2)
        · exact Or.inl (h2 ▸ h1)
        · exact Or.inl (h1 ▸ h2)
        · exact Or.inr ⟨h1.trans h2, ih bs cs h1r h2r⟩

instance : IsTotal (Product × ℚ) nameRel :=
  ⟨fun a b => charListLe_total a.1.name.data b.1.name.data⟩

instance : IsTrans (Product × ℚ) nameRel :=
  ⟨fun a b c => charListLe_trans a.1.name.data b.1.name.data c.1.name.data⟩

theorem priceLe_total (asc : Bool) : ∀ a b : Option ℚ, priceLe asc a b ∨ priceLe asc b a := by
  intro a b
  rcases a with _ | x <;> rcases b with _ | y <;> simp [priceLe]
  cases asc <;> simp [le_total y x, le_total x y]

theorem priceLe_trans (asc : Bool) : ∀ a b c : Option ℚ,
    priceLe asc a b → priceLe asc b c → priceLe asc a c := by
  intro a b c hab hbc
  rcases a with _ | x <;> rcases b with _ | y <;> rcases c with _ | z <;>
    simp [priceLe] at hab hbc ⊢ <;> cases asc <;> simp_all <;>
    first
      | exact le_trans hab hbc
      | exact le_trans hbc hab

instance : IsTotal (Product × ℚ) priceAscRel :=
  ⟨fun a b => priceLe_total true a.1.price_numeric b.1.price_numeric⟩

instance : IsTrans (Product × ℚ) priceAscRel :=
  ⟨fun a b c => priceLe_trans true a.1.price_numeric b.1.price_numeric c.1.price_numeric⟩

instance : IsTotal (Product × ℚ) priceDescRel :=
  ⟨fun a b => priceLe_total false a.1.price_numeric b.1.price_numeric⟩

instance : IsTrans (Product × ℚ) priceDescRel :=
  ⟨fun a b c => priceLe_trans false a.1.price_numeric b.1.price_numeric c.1.price_numeric⟩

instance : IsTotal (Nat × ℚ) fusedRel := by
  constructor
  intro a b
  rcases lt_trichotomy a.2 b.2 with h | h | h
  · right; exact Or.inl h
  · rcases Nat.le_total a.1 b.1 with h2 | h2
    · left; exact Or.inr ⟨h, h2⟩
    · right; exact Or.inr ⟨h.symm, h2⟩
  · left; exact Or.inl h

instance : IsTrans (Nat × ℚ) fusedRel := by
  constructor
  intro a b c hab hbc
  rcases hab with h1 | ⟨h1, h1r⟩ <;> rcases hbc with h2 | ⟨h2, h2r⟩
  · exact Or.inl (h2.trans h1)
  · exact Or.inl (h2 ▸ h1)
  · exact Or.inl (h1 ▸ h2)
  · exact Or.inr ⟨h1.trans h2, h1r.trans h2r⟩

/-- C10: every client-side handler that changes the search text, sort mode,
store, or category filter issues its next request with the page number reset
to 1, while the page-change handler keeps every filter and varies only the
page, so a filter change can never request a page computed under the
previous filters. -/
theorem handlers_reset_page :
    ∀ (f : FilterOptions) (s st : String) (o c : Option String) (p : Nat),
    (handleSearchCategory f s).page = some 1 ∧
    (handleSortChange f st).page = some 1 ∧
    (handleStoreChange f o).page = some 1 ∧
    (handleCategoryChange f c).page = some 1 ∧
    (handleSearchHome f s).page = some 1 ∧
    ((handlePageChange f p).search = f.search ∧
      (handlePageChange f p).sort = f.sort ∧
      (handlePageChange f p).store = f.store ∧
      (handlePageChange f p).category = f.category ∧
      (handlePageChange f p).brand = f.brand ∧
      (handlePageChange f p).limit = f.limit ∧
      (handlePageChange f p).page = some p) := by
  intro f s st o c p
  refine ⟨rfl, rfl, rfl, rfl, rfl, rfl, rfl, rfl, rfl, rfl, rfl, rfl⟩

/-- C9 counterexample: the claim fails on the code — the sort union type of
`FilterOptions` in frontend/src/lib/types.ts admits only `name`, `price_low`
and `price_high` (no `relevance` mode), and a category-page request with
non-empty query text and no explicit sort override is issued with the
default sort `name`, not relevance order. -/
theorem sort_modes_no_relevance :
    ("relevance" ∈ clientSortModes) = False ∧
    (initialFilters "IGA" "Dairy" (some "milk") none none).sort = some "name" := by
  constructor
  · simp [clientSortModes]
  · rfl

/-- C9 amended: the accepted sort modes are `name`, `price_low`, and
`price_high`, and every request with no explicit sort override — whatever its
query text — is issued with the default sort `name`. -/
theorem sort_modes_default_name :
    clientSortModes = ["name", "price_low", "price_high"] ∧
    ∀ (store category : String) (searchP : Option String) (pageP : Option Nat),
      (initialFilters store category searchP none pageP).sort = some "name" := by
  exact ⟨rfl, fun _ _ _ _ => rfl⟩

theorem find?_map_keyed (h : Nat × ℚ → ℚ) (i : Nat) :
    ∀ cs : List (Nat × ℚ),
    List.find? (fun c => c.1 == i) (cs.map (fun c => (c.1, h c))) =
      (List.find? (fun c => c.1 == i) cs).map (fun c => (c.1, h c)) := by
  intro cs
  induction cs with
  | nil => rfl
  | cons a t ih =>
    by_cases hc : a.1 = i
    · simp [List.find?_cons, hc]
    · simp [List.find?_cons, hc, ih]

theorem lookup_normalize (cs : List (Nat × ℚ)) (i : Nat) :
    lookupScore (normalizeScores cs) i = specMinMax cs i := by
  unfold lookupScore normalizeScores specMinMax
  by_cases h : listMax (cs.map Prod.snd) = listMin (cs.map Prod.snd)
  · simp only [if_pos h, find?_map_keyed]
    cases List.find? (fun c => c.1 == i) cs <;> simp
  · simp only [if_neg h]
    rw [show (fun c : Nat × ℚ => (c.1, (c.2 - listMin (cs.map Prod.snd)) /
        (listMax (cs.map Prod.snd) - listMin (cs.map Prod.snd)))) =
      (fun c : Nat × ℚ => (c.1, (fun d : Nat × ℚ => (d.2 - listMin (cs.map Prod.snd)) /
        (listMax (cs.map Prod.snd) - listMin (cs.map Prod.snd))) c)) from rfl,
      find?_map_keyed]
    cases List.find? (fun c => c.1 == i) cs <;> simp

theorem lookup_map_fn (g : Nat → ℚ) (i : Nat) :
    ∀ ids : List Nat,
    lookupScore (ids.map (fun j => (j, g j))) i = if i ∈ ids then g i else 0 := by
  intro ids
  induction ids with
  | nil => rfl
  | cons a t ih =>
    by_cases hc : a = i
    · subst hc; simp [lookupScore, List.find?_cons]
    · simp only [List.map_cons, lookupScore, List.find?_cons] at ih ⊢
      simp only [show ((a, g a).1 == i) = false by simpa using hc]
      rw [ih]
      simp [List.mem_cons, hc, Ne.symm hc]

theorem lookup_not_mem (cs : List (Nat × ℚ)) (i : Nat)
    (h : i ∉ cs.map Prod.fst) : lookupScore cs i = 0 := by
  unfold lookupScore
  rw [List.find?_eq_none.2]
  intro c hc
  simp only [beq_iff_eq]
  intro he
  exact h (List.mem_map.2 ⟨c, hc, he⟩)

theorem specMinMax_not_mem (cs : List (Nat × ℚ)) (i : Nat)
    (h : i ∉ cs.map Prod.fst) : specMinMax cs i = 0 := by
  unfold specMinMax
  rw [List.find?_eq_none.2]
  intro c hc
  simp only [beq_iff_eq]
  intro he
  exact h (List.mem_map.2 ⟨c, hc, he⟩)

/-- C2: for every pair of candidate lists, the fused score of every
identifier equals `alpha` times the min-max-normalized vector score plus
`(1 - alpha)` times the min-max-normalized lexical score, each list
normalized independently over itself, a single-element list normalizing to
1.0, an identifier missing from one source contributing 0 for that source,
and the default fusion weight being 0.5. -/
theorem fusion_formula :
    (∀ (alpha : ℚ) (vec lex : List (Nat × ℚ)) (i : Nat),
      lookupScore (fuseScores alpha vec lex) i =
        alpha * specMinMax vec i + (1 - alpha) * specMinMax lex i) ∧
    (∀ (j : Nat) (s : ℚ), normalizeScores [(j, s)] = [(j, 1)]) ∧
    defaultConfig.alpha = 1 / 2 := by
  refine ⟨?_, ?_, rfl⟩
  · intro alpha vec lex i
    unfold fuseScores
    rw [lookup_map_fn]
    by_cases h : i ∈ unionIds vec lex
    · rw [if_pos h, lookup_normalize, lookup_normalize]
    · rw [if_neg h]
      have hv : i ∉ vec.map Prod.fst := by
        intro hm
        exact h (List.mem_dedup.2 (List.mem_append.2 (Or.inl hm)))
      have hl : i ∉ lex.map Prod.fst := by
        intro hm
        exact h (List.mem_dedup.2 (List.mem_append.2 (Or.inr hm)))
      rw [specMinMax_not_mem vec i hv, specMinMax_not_mem lex i hl]
      ring
  · intro j s
    simp [normalizeScores, listMin, listMax]

theorem fuseScores_map_fst (alpha : ℚ) (vec lex : List (Nat × ℚ)) :
    (fuseScores alpha vec lex).map Prod.fst = unionIds vec lex := by
  unfold fuseScores
  rw [List.map_map]
  simp [Function.comp_def]

theorem rankFused_nodup_fst (t : ℚ) (fused : List (Nat × ℚ))
    (h : (fused.map Prod.fst).Nodup) :
    ((rankFused t fused).map Prod.fst).Nodup := by
  unfold rankFused
  have hperm := List.perm_insertionSort fusedRel
    (fused.filter (fun c => decide (t ≤ c.2)))
  have hsub : ((fused.filter (fun c => decide (t ≤ c.2))).map Prod.fst).Sublist
      (fused.map Prod.fst) := (List.filter_sublist fused).map Prod.fst
  exact ((hperm.map Prod.fst).nodup_iff).2 (hsub.nodup h)

/-- C7: among the ranked fused candidates, any two entries with equal fused
scores appear in ascending identifier order (the earlier one has the smaller
identifier); in particular two candidates tied at fused score 0.73 with
identifiers 17 and 4 are ranked with 4 before 17. -/
theorem tie_break_ascending_id :
    (∀ (t alpha : ℚ) (vec lex : List (Nat × ℚ)),
      List.Pairwise (fun a b : Nat × ℚ => a.2 = b.2 → a.1 < b.1)
        (rankFused t (fuseScores alpha vec lex))) ∧
    rankFused defaultConfig.threshold [(17, 73/100), (4, 73/100)] =
      [(4, 73/100), (17, 73/100)] := by
  constructor
  · intro t alpha vec lex
    have hs : List.Pairwise fusedRel (rankFused t (fuseScores alpha vec lex)) :=
      List.sorted_insertionSort fusedRel _
    have hn : ((rankFused t (fuseScores alpha vec lex)).map Prod.fst).Nodup := by
      apply rankFused_nodup_fst
      rw [fuseScores_map_fst]
      exact List.nodup_dedup _
    have hne : List.Pairwise (fun a b : Nat × ℚ => a.1 ≠ b.1)
        (rankFused t (fuseScores alpha vec lex)) := List.pairwise_map.1 hn
    refine (hs.and hne).imp ?_
    rintro a b ⟨hr, hab⟩ heq
    rcases hr with h | ⟨_, hle⟩
    · rw [heq] at h
      exact absurd h (lt_irrefl _)
    · exact lt_of_le_of_ne hle hab
  · unfold rankFused defaultConfig
    norm_num [List.filter, List.insertionSort, List.orderedInsert, fusedRel]

/-- C6: each explicit sort mode re-sorts exactly the same filtered candidate
set — the output is a permutation of the input, never a different set — by
that mode's key: the `name` output is in lexicographic name order, the
`price_low` output is ascending and the `price_high` output descending on
present numeric prices, and null numeric prices sort last regardless of
direction; in particular an empty query with category Dairy and sort
price_low returns all Dairy products ascending by numeric price with nulls
last, whatever the embedding/vector/lexical components would do. -/
theorem explicit_sort_modes :
    (∀ cands : List (Product × ℚ),
      (sortCandidates .byName cands).Perm cands ∧
      (sortCandidates .priceLow cands).Perm cands ∧
      (sortCandidates .priceHigh cands).Perm cands ∧
      List.Pairwise (fun a b : Product × ℚ =>
        charListLe a.1.name.data b.1.name.data = true) (sortCandidates .byName cands) ∧
      List.Pairwise (fun a b : Product × ℚ => ∀ x y, a.1.price_numeric = some x →
        b.1.price_numeric = some y → x ≤ y) (sortCandidates .priceLow cands) ∧
      List.Pairwise (fun a b : Product × ℚ => ∀ x y, a.1.price_numeric = some x →
        b.1.price_numeric = some y → y ≤ x) (sortCandidates .priceHigh cands) ∧
      List.Pairwise (fun a b : Product × ℚ => a.1.price_numeric = none →
        b.1.price_numeric = none) (sortCandidates .priceLow cands) ∧
      List.Pairwise (fun a b : Product × ℚ => a.1.price_numeric = none →
        b.1.price_numeric = none) (sortCandidates .priceHigh cands)) ∧
    (∀ (embed : String → Option (List ℚ))
      (vecSearch : List ℚ → Filters → Option (List (Nat × ℚ)))
      (lexSearch : String → Filters → List (Nat × ℚ)),
      searchEngine dairyCatalog embed vecSearch lexSearch defaultConfig scenarioBQuery =
        scenarioBExpected) := by
  constructor
  · intro cands
    refine ⟨List.perm_insertionSort nameRel cands,
      List.perm_insertionSort priceAscRel cands,
      List.perm_insertionSort priceDescRel cands,
      List.sorted_insertionSort nameRel cands, ?_, ?_, ?_, ?_⟩
    · have hs : List.Pairwise priceAscRel (sortCandidates .priceLow cands) :=
        List.sorted_insertionSort priceAscRel cands
      refine hs.imp ?_
      intro a b hr x y hx hy
      unfold priceAscRel priceLe at hr
      rw [hx, hy] at hr
      simpa using hr
    · have hs : List.Pairwise priceDescRel (sortCandidates .priceHigh cands) :=
        List.sorted_insertionSort priceDescRel cands
      refine hs.imp ?_
      intro a b hr x y hx hy
      unfold priceDescRel priceLe at hr
      rw [hx, hy] at hr
      simpa using hr
    · have hs : List.Pairwise priceAscRel (sortCandidates .priceLow cands) :=
        List.sorted_insertionSort priceAscRel cands
      refine hs.imp ?_
      intro a b hr ha
      unfold priceAscRel priceLe at hr
      rw [ha] at hr
      cases hb : b.1.price_numeric with
      | none => rfl
      | some y => rw [hb] at hr; simp at hr
    · have hs : List.Pairwise priceDescRel (sortCandidates .priceHigh cands) :=
        List.sorted_insertionSort priceDescRel cands
      refine hs.imp ?_
      intro a b hr ha
      unfold priceDescRel priceLe at hr
      rw [ha] at hr
      cases hb : b.1.price_numeric with
      | none => rfl
      | some y => rw [hb] at hr; simp at hr
  · intro embed vecSearch lexSearch
    unfold searchEngine
    rw [show isBlankChars scenarioBQuery.search.data = true from rfl, if_pos rfl]
    decide

theorem searchEngine_blank (catalog : List Product)
    (embed : String → Option (List ℚ))
    (vecSearch : List ℚ → Filters → Option (List (Nat × ℚ)))
    (lexSearch : String → Filters → List (Nat × ℚ))
    (cfg : Config) (q : Query) (h : isBlankChars q.search.data = true) :
    searchEngine catalog embed vecSearch lexSearch cfg q =
      finishStage q.sort q.page q.limit (plainCandidates catalog q.filters).length
        (plainCandidates catalog q.filters) := by
  unfold searchEngine
  rw [h, if_pos rfl]

theorem searchEngine_vec_fail (catalog : List Product)
    (embed : String → Option (List ℚ))
    (vecSearch : List ℚ → Filters → Option (List (Nat × ℚ)))
    (lexSearch : String → Filters → List (Nat × ℚ))
    (cfg : Config) (q : Query) (hq : isBlankChars q.search.data = false)
    (hv : ∀ x f, vecSearch x f = none) :
    searchEngine catalog embed vecSearch lexSearch cfg q =
      finishStage q.sort q.page q.limit
        (degradedCandidates catalog q.filters q.search).length
        (degradedCandidates catalog q.filters q.search) := by
  unfold searchEngine
  rw [hq, if_neg (by simp)]
  split
  · rfl
  · rw [hv _ q.filters]

/-- C3: for every request whose query text is blank, the engine's result is
independent of the embedding, vector, and lexical components (they are never
consulted) and equals the plain filtered/sorted listing under the given
structural filters. -/
theorem empty_query_pure_listing :
    ∀ (catalog : List Product)
      (e1 e2 : String → Option (List ℚ))
      (v1 v2 : List ℚ → Filters → Option (List (Nat × ℚ)))
      (l1 l2 : String → Filters → List (Nat × ℚ))
      (cfg1 cfg2 : Config) (q : Query),
      isBlankChars q.search.data = true →
      searchEngine catalog e1 v1 l1 cfg1 q = searchEngine catalog e2 v2 l2 cfg2 q ∧
      searchEngine catalog e1 v1 l1 cfg1 q =
        finishStage q.sort q.page q.limit (plainCandidates catalog q.filters).length
          (plainCandidates catalog q.filters) := by
  intro catalog e1 e2 v1 v2 l1 l2 cfg1 cfg2 q h
  exact ⟨(searchEngine_blank catalog e1 v1 l1 cfg1 q h).trans
      (searchEngine_blank catalog e2 v2 l2 cfg2 q h).symm,
    searchEngine_blank catalog e1 v1 l1 cfg1 q h⟩

/-- Witness for C3 at a concrete input: the empty-query Dairy request over
the concrete catalog is served identically under two entirely different
embedding/vector/lexical components and equals the plain listing. -/
theorem empty_query_pure_listing_spot :
    searchEngine dairyCatalog embedNone vecNone lexNone defaultConfig scenarioBQuery =
      searchEngine dairyCatalog embedOne vecOne lexOne defaultConfig scenarioBQuery ∧
    searchEngine dairyCatalog embedNone vecNone lexNone defaultConfig scenarioBQuery =
      finishStage scenarioBQuery.sort scenarioBQuery.page scenarioBQuery.limit
        (plainCandidates dairyCatalog scenarioBQuery.filters).length
        (plainCandidates dairyCatalog scenarioBQuery.filters) :=
  empty_query_pure_listing dairyCatalog embedNone embedOne vecNone vecOne
    lexNone lexOne defaultConfig defaultConfig scenarioBQuery (by decide)

/-- C1: whenever the vector path fails (`VectorServiceError` forced for every
call), a request with non-blank query text is served by the Degraded path:
the response is produced by the very same pagination/sort stage — hence has
the identical schema, field set, and pagination semantics as the Primary
path — over the case-insensitive substring matches of the raw query against
name/brand within the structural filters, every match carries fused score
1.0, and `total` equals the count of substring matches under those filters. -/
theorem degraded_fallback_equivalence :
    ∀ (catalog : List Product)
      (embed : String → Option (List ℚ))
      (vecSearch : List ℚ → Filters → Option (List (Nat × ℚ)))
      (lexSearch : String → Filters → List (Nat × ℚ))
      (cfg : Config) (q : Query),
      isBlankChars q.search.data = false →
      (∀ x f, vecSearch x f = none) →
      searchEngine catalog embed vecSearch lexSearch cfg q =
        finishStage q.sort q.page q.limit
          (degradedCandidates catalog q.filters q.search).length
          (degradedCandidates catalog q.filters q.search) ∧
      (searchEngine catalog embed vecSearch lexSearch cfg q).total =
        (catalog.filter (fun p =>
          matchesFilters q.filters p && substrMatch q.search p)).length ∧
      ∀ c ∈ degradedCandidates catalog q.filters q.search, c.2 = 1 := by
  intro catalog embed vecSearch lexSearch cfg q hq hv
  have he := searchEngine_vec_fail catalog embed vecSearch lexSearch cfg q hq hv
  refine ⟨he, ?_, ?_⟩
  · rw [he]
    show (degradedCandidates catalog q.filters q.search).length = _
    unfold degradedCandidates
    rw [List.length_map]
  · intro c hc
    unfold degradedCandidates at hc
    rcases List.mem_map.1 hc with ⟨p, _, hp⟩
    rw [← hp]

/-- Witness for C1 at a concrete input: the query "Milk" over the concrete
catalog with the vector source forced to fail. -/
theorem degraded_fallback_equivalence_spot :
    searchEngine dairyCatalog embedOne vecNone lexOne defaultConfig qMilk =
      finishStage qMilk.sort qMilk.page qMilk.limit
        (degradedCandidates dairyCatalog qMilk.filters qMilk.search).length
        (degradedCandidates dairyCatalog qMilk.filters qMilk.search) ∧
    (searchEngine dairyCatalog embedOne vecNone lexOne defaultConfig qMilk).total =
      (dairyCatalog.filter (fun p =>
        matchesFilters qMilk.filters p && substrMatch qMilk.search p)).length ∧
    ∀ c ∈ degradedCandidates dairyCatalog qMilk.filters qMilk.search, c.2 = 1 :=
  degraded_fallback_equivalence dairyCatalog embedOne vecNone lexOne defaultConfig qMilk
    (by decide) (fun _ _ => rfl)

theorem searchEngine_embed_fail (catalog : List Product)
    (embed : String → Option (List ℚ))
    (vecSearch : List ℚ → Filters → Option (List (Nat × ℚ)))
    (lexSearch : String → Filters → List (Nat × ℚ))
    (cfg : Config) (q : Query) (hq : isBlankChars q.search.data = false)
    (he : embed q.search = none) :
    searchEngine catalog embed vecSearch lexSearch cfg q =
      finishStage q.sort q.page q.limit
        (degradedCandidates catalog q.filters q.search).length
        (degradedCandidates catalog q.filters q.search) := by
  unfold searchEngine
  simp only [hq, Bool.false_eq_true, if_false, he]

theorem searchEngine_vec_fail_at (catalog : List Product)
    (embed : String → Option (List ℚ))
    (vecSearch : List ℚ → Filters → Option (List (Nat × ℚ)))
    (lexSearch : String → Filters → List (Nat × ℚ))
    (cfg : Config) (q : Query) (x : List ℚ)
    (hq : isBlankChars q.search.data = false)
    (he : embed q.search = some x)
    (hv : vecSearch x q.filters = none) :
    searchEngine catalog embed vecSearch lexSearch cfg q =
      finishStage q.sort q.page q.limit
        (degradedCandidates catalog q.filters q.search).length
        (degradedCandidates catalog q.filters q.search) := by
  unfold searchEngine
  simp only [hq, Bool.false_eq_true, if_false, he, hv]

theorem searchEngine_primary (catalog : List Product)
    (embed : String → Option (List ℚ))
    (vecSearch : List ℚ → Filters → Option (List (Nat × ℚ)))
    (lexSearch : String → Filters → List (Nat × ℚ))
    (cfg : Config) (q : Query) (x : List ℚ) (vecCands : List (Nat × ℚ))
    (hq : isBlankChars q.search.data = false)
    (he : embed q.search = some x)
    (hv : vecSearch x q.filters = some vecCands) :
    searchEngine catalog embed vecSearch lexSearch cfg q =
      finishStage q.sort q.page q.limit
        (rankFused cfg.threshold
          (fuseScores cfg.alpha vecCands (lexSearch q.search q.filters))).length
        (hydrate catalog (rankFused cfg.threshold
          (fuseScores cfg.alpha vecCands (lexSearch q.search q.filters)))) := by
  unfold searchEngine
  simp only [hq, Bool.false_eq_true, if_false, he, hv]

/-- C8: for a fixed query, filter set and candidate sources, raising the
relevance threshold never increases the result count — for thresholds
t1 < t2 the total under t2 is at most the total under t1. -/
theorem threshold_antitone :
    ∀ (catalog : List Product)
      (embed : String → Option (List ℚ))
      (vecSearch : List ℚ → Filters → Option (List (Nat × ℚ)))
      (lexSearch : String → Filters → List (Nat × ℚ))
      (cfg : Config) (t1 t2 : ℚ) (q : Query),
      t1 < t2 →
      (searchEngine catalog embed vecSearch lexSearch
        { cfg with threshold := t2 } q).total ≤
      (searchEngine catalog embed vecSearch lexSearch
        { cfg with threshold := t1 } q).total := by
  intro catalog embed vecSearch lexSearch cfg t1 t2 q ht
  by_cases hb : isBlankChars q.search.data = true
  · rw [searchEngine_blank catalog embed vecSearch lexSearch _ q hb,
      searchEngine_blank catalog embed vecSearch lexSearch _ q hb]
  · have hb' : isBlankChars q.search.data = false := by simpa using hb
    cases he : embed q.search with
    | none =>
      rw [searchEngine_embed_fail catalog embed vecSearch lexSearch _ q hb' he,
        searchEngine_embed_fail catalog embed vecSearch lexSearch _ q hb' he]
    | some x =>
      cases hvx : vecSearch x q.filters with
      | none =>
        rw [searchEngine_vec_fail_at catalog embed vecSearch lexSearch _ q x hb' he hvx,
          searchEngine_vec_fail_at catalog embed vecSearch lexSearch _ q x hb' he hvx]
      | some vecCands =>
        rw [searchEngine_primary catalog embed vecSearch lexSearch _ q x vecCands hb' he hvx,
          searchEngine_primary catalog embed vecSearch lexSearch _ q x vecCands hb' he hvx]
        show (rankFused t2 (fuseScores cfg.alpha vecCands
            (lexSearch q.search q.filters))).length ≤
          (rankFused t1 (fuseScores cfg.alpha vecCands
            (lexSearch q.search q.filters))).length
        unfold rankFused
        rw [(List.perm_insertionSort fusedRel _).length_eq,
          (List.perm_insertionSort fusedRel _).length_eq]
        refine List.Sublist.length_le (List.monotone_filter_right _ ?_)
        intro a ha
        simp only [decide_eq_true_eq] at ha ⊢
        exact le_trans (le_of_lt ht) ha

/-- Witness for C8 at a concrete input: thresholds 0 < 1 over the concrete
catalog and candidate sources. -/
theorem threshold_antitone_spot :
    (searchEngine dairyCatalog embedOne vecOne lexOne
      { defaultConfig with threshold := 1 } qMilk).total ≤
    (searchEngine dairyCatalog embedOne vecOne lexOne
      { defaultConfig with threshold := 0 } qMilk).total :=
  threshold_antitone dairyCatalog embedOne vecOne lexOne defaultConfig 0 1 qMilk
    (by norm_num)

theorem le_pages_mul (T limit : Nat) (hl : 0 < limit) :
    T ≤ ((T + limit - 1) / limit) * limit := by
  have key : ∀ x r : Nat, x + r = T + limit - 1 → r < limit → 0 < limit → T ≤ x := by
    omega
  have h1 := Nat.div_add_mod (T + limit - 1) limit
  have h2 := Nat.mod_lt (T + limit - 1) hl
  have h3 := key (limit * ((T + limit - 1) / limit)) ((T + limit - 1) % limit) h1 h2 hl
  rwa [Nat.mul_comm] at h3

theorem chunks_concat {α : Type} (limit : Nat) :
    ∀ (n : Nat) (l : List α),
    (List.range n).flatMap (fun i => (l.drop (i * limit)).take limit) =
      l.take (n * limit) := by
  intro n
  induction n with
  | zero => intro l; simp
  | succ m ih =>
    intro l
    rw [List.range_succ, List.flatMap_append, ih]
    simp only [List.flatMap_cons, List.flatMap_nil, List.append_nil]
    rw [← List.take_add, Nat.succ_mul]

theorem sortCandidates_perm (mode : SortMode) (cands : List (Product × ℚ)) :
    (sortCandidates mode cands).Perm cands := by
  cases mode
  · exact List.Perm.refl cands
  · exact List.perm_insertionSort nameRel cands
  · exact List.perm_insertionSort priceAscRel cands
  · exact List.perm_insertionSort priceDescRel cands

theorem finish_concat (mode : SortMode) (limit T : Nat) (C : List (Product × ℚ))
    (hl : 0 < limit) (hT : C.length = T) :
    (List.range ((finishStage mode 1 limit T C).pages)).flatMap
      (fun i => (finishStage mode (i + 1) limit T C).products) =
    (sortCandidates mode C).map Prod.fst := by
  show (List.range ((T + limit - 1) / limit)).flatMap
      (fun i => (((sortCandidates mode C).drop ((i + 1 - 1) * limit)).take limit).map
        Prod.fst) = _
  simp only [Nat.add_sub_cancel]
  rw [← List.map_flatMap, chunks_concat]
  apply congrArg
  apply List.take_of_length_le
  rw [(sortCandidates_perm mode C).length_eq, hT]
  exact le_pages_mul T limit hl

theorem finish_paging (mode : SortMode) (limit T : Nat) (C : List (Product × ℚ))
    (hl : 0 < limit) (hT : C.length = T)
    (hnd : (C.map (fun pc => pc.1.id)).Nodup) :
    ((((List.range ((finishStage mode 1 limit T C).pages)).flatMap
      (fun i => (finishStage mode (i + 1) limit T C).products)).map Product.id).Nodup) ∧
    ((List.range ((finishStage mode 1 limit T C).pages)).flatMap
      (fun i => (finishStage mode (i + 1) limit T C).products)).length = T := by
  rw [finish_concat mode limit T C hl hT]
  constructor
  · rw [List.map_map]
    have hperm := (sortCandidates_perm mode C).map (fun pc : Product × ℚ => pc.1.id)
    exact (hperm.nodup_iff).2 hnd
  · rw [List.length_map, (sortCandidates_perm mode C).length_eq, hT]

theorem plainCandidates_ids (catalog : List Product) (f : Filters) :
    (plainCandidates catalog f).map (fun pc => pc.1.id) =
      (catalog.filter (fun p => matchesFilters f p)).map Product.id := by
  unfold plainCandidates
  rw [List.map_map]
  rfl

theorem degradedCandidates_ids (catalog : List Product) (f : Filters) (s : String) :
    (degradedCandidates catalog f s).map (fun pc => pc.1.id) =
      (catalog.filter (fun p => matchesFilters f p && substrMatch s p)).map Product.id := by
  unfold degradedCandidates
  rw [List.map_map]
  rfl

theorem nodup_ids_plain (catalog : List Product) (f : Filters)
    (h : (catalog.map Product.id).Nodup) :
    ((plainCandidates catalog f).map (fun pc => pc.1.id)).Nodup := by
  rw [plainCandidates_ids]
  exact ((List.filter_sublist catalog).map Product.id).nodup h

theorem nodup_ids_degraded (catalog : List Product) (f : Filters) (s : String)
    (h : (catalog.map Product.id).Nodup) :
    ((degradedCandidates catalog f s).map (fun pc => pc.1.id)).Nodup := by
  rw [degradedCandidates_ids]
  exact ((List.filter_sublist catalog).map Product.id).nodup h

theorem hydrate_ids (catalog : List Product) :
    ∀ cands : List (Nat × ℚ),
    (∀ c ∈ cands, c.1 ∈ catalog.map Product.id) →
    (hydrate catalog cands).map (fun pc => pc.1.id) = cands.map Prod.fst := by
  intro cands
  induction cands with
  | nil => intro _; rfl
  | cons c t ih =>
    intro h
    have hc : c.1 ∈ catalog.map Product.id := h c (List.mem_cons_self c t)
    obtain ⟨p, hp, hpid⟩ := List.mem_map.1 hc
    have hfind : ∃ p', catalog.find? (fun r => r.id == c.1) = some p' := by
      cases hf : catalog.find? (fun r => r.id == c.1) with
      | some p' => exact ⟨p', rfl⟩
      | none =>
        have := List.find?_eq_none.1 hf p hp
        simp [hpid] at this
    obtain ⟨p', hp'⟩ := hfind
    have hid : p'.id = c.1 := by
      have := List.find?_some hp'
      simpa using this
    have hcons : hydrate catalog (c :: t) = (p', c.2) :: hydrate catalog t := by
      unfold hydrate
      rw [List.filterMap_cons]
      simp [hp']
    rw [hcons, List.map_cons, List.map_cons]
    exact congrArg₂ List.cons hid (ih (fun d hd => h d (List.mem_cons_of_mem c hd)))

theorem rankFused_mem_union (t alpha : ℚ) (vec lex : List (Nat × ℚ)) :
    ∀ c ∈ rankFused t (fuseScores alpha vec lex),
      c.1 ∈ vec.map Prod.fst ∨ c.1 ∈ lex.map Prod.fst := by
  intro c hc
  unfold rankFused at hc
  have hc2 := (List.perm_insertionSort fusedRel _).mem_iff.1 hc
  have hc3 := List.mem_of_mem_filter hc2
  unfold fuseScores at hc3
  obtain ⟨i, hi, hci⟩ := List.mem_map.1 hc3
  have hc1 : c.1 = i := by rw [← hci]
  rw [hc1]
  unfold unionIds at hi
  exact List.mem_append.1 (List.mem_dedup.1 hi)

theorem searchEngine_canonical_weak (catalog : List Product)
    (embed : String → Option (List ℚ))
    (vecSearch : List ℚ → Filters → Option (List (Nat × ℚ)))
    (lexSearch : String → Filters → List (Nat × ℚ))
    (cfg : Config) (q : Query) :
    ∃ (T : Nat) (C : List (Product × ℚ)), C.length ≤ T ∧
      ∀ (p l : Nat),
        searchEngine catalog embed vecSearch lexSearch cfg
          { q with page := p, limit := l } = finishStage q.sort p l T C := by
  by_cases hb : isBlankChars q.search.data = true
  · exact ⟨(plainCandidates catalog q.filters).length, plainCandidates catalog q.filters,
      le_rfl, fun p l => searchEngine_blank catalog embed vecSearch lexSearch cfg _ hb⟩
  · have hb' : isBlankChars q.search.data = false := by simpa using hb
    cases he : embed q.search with
    | none =>
      exact ⟨(degradedCandidates catalog q.filters q.search).length,
        degradedCandidates catalog q.filters q.search, le_rfl,
        fun p l => searchEngine_embed_fail catalog embed vecSearch lexSearch cfg _ hb' he⟩
    | some x =>
      cases hvx : vecSearch x q.filters with
      | none =>
        exact ⟨(degradedCandidates catalog q.filters q.search).length,
          degradedCandidates catalog q.filters q.search, le_rfl,
          fun p l => searchEngine_vec_fail_at catalog embed vecSearch lexSearch cfg _ x hb' he hvx⟩
      | some vecCands =>
        exact ⟨(rankFused cfg.threshold
            (fuseScores cfg.alpha vecCands (lexSearch q.search q.filters))).length,
          hydrate catalog (rankFused cfg.threshold
            (fuseScores cfg.alpha vecCands (lexSearch q.search q.filters))),
          List.length_filterMap_le _ _,
          fun p l => searchEngine_primary catalog embed vecSearch lexSearch cfg _ x vecCands hb' he hvx⟩

theorem searchEngine_canonical (catalog : List Product)
    (embed : String → Option (List ℚ))
    (vecSearch : List ℚ → Filters → Option (List (Nat × ℚ)))
    (lexSearch : String → Filters → List (Nat × ℚ))
    (cfg : Config) (q : Query)
    (hnd : (catalog.map Product.id).Nodup)
    (hvc : ∀ x f cands, vecSearch x f = some cands →
      ∀ c ∈ cands, c.1 ∈ catalog.map Product.id)
    (hlc : ∀ s f, ∀ c ∈ lexSearch s f, c.1 ∈ catalog.map Product.id) :
    ∃ (T : Nat) (C : List (Product × ℚ)), C.length = T ∧
      (C.map (fun pc => pc.1.id)).Nodup ∧
      ∀ (p l : Nat),
        searchEngine catalog embed vecSearch lexSearch cfg
          { q with page := p, limit := l } = finishStage q.sort p l T C := by
  by_cases hb : isBlankChars q.search.data = true
  · exact ⟨(plainCandidates catalog q.filters).length, plainCandidates catalog q.filters,
      rfl, nodup_ids_plain catalog q.filters hnd,
      fun p l => searchEngine_blank catalog embed vecSearch lexSearch cfg _ hb⟩
  · have hb' : isBlankChars q.search.data = false := by simpa using hb
    cases he : embed q.search with
    | none =>
      exact ⟨(degradedCandidates catalog q.filters q.search).length,
        degradedCandidates catalog q.filters q.search, rfl,
        nodup_ids_degraded catalog q.filters q.search hnd,
        fun p l => searchEngine_embed_fail catalog embed vecSearch lexSearch cfg _ hb' he⟩
    | some x =>
      cases hvx : vecSearch x q.filters with
      | none =>
        exact ⟨(degradedCandidates catalog q.filters q.search).length,
          degradedCandidates catalog q.filters q.search, rfl,
          nodup_ids_degraded catalog q.filters q.search hnd,
          fun p l => searchEngine_vec_fail_at catalog embed vecSearch lexSearch cfg _ x hb' he hvx⟩
      | some vecCands =>
        have hcont : ∀ c ∈ rankFused cfg.threshold
            (fuseScores cfg.alpha vecCands (lexSearch q.search q.filters)),
            c.1 ∈ catalog.map Product.id := by
          intro c hc
          rcases rankFused_mem_union cfg.threshold cfg.alpha vecCands
            (lexSearch q.search q.filters) c hc with h | h
          · obtain ⟨d, hd, hdi⟩ := List.mem_map.1 h
            exact hdi ▸ hvc x q.filters vecCands hvx d hd
          · obtain ⟨d, hd, hdi⟩ := List.mem_map.1 h
            exact hdi ▸ hlc q.search q.filters d hd
        have hids := hydrate_ids catalog
          (rankFused cfg.threshold
            (fuseScores cfg.alpha vecCands (lexSearch q.search q.filters))) hcont
        refine ⟨(rankFused cfg.threshold
            (fuseScores cfg.alpha vecCands (lexSearch q.search q.filters))).length,
          hydrate catalog (rankFused cfg.threshold
            (fuseScores cfg.alpha vecCands (lexSearch q.search q.filters))), ?_, ?_,
          fun p l => searchEngine_primary catalog embed vecSearch lexSearch cfg _ x vecCands hb' he hvx⟩
        · have := congrArg List.length hids
          rwa [List.length_map, List.length_map] at this
        · rw [hids]
          apply rankFused_nodup_fst
          rw [fuseScores_map_fst]
          exact List.nodup_dedup _

/-- C4: for a fixed query, filter set and sort mode over unchanged data (a
catalog with distinct identifiers and candidate sources that only return
catalog identifiers), concatenating all pages yields exactly `total` distinct
identifiers with zero duplicates, and `total` is independent of the page and
page size requested. -/
theorem paging_completeness :
    ∀ (catalog : List Product)
      (embed : String → Option (List ℚ))
      (vecSearch : List ℚ → Filters → Option (List (Nat × ℚ)))
      (lexSearch : String → Filters → List (Nat × ℚ))
      (cfg : Config) (q : Query),
      (catalog.map Product.id).Nodup →
      0 < q.limit →
      (∀ x f cands, vecSearch x f = some cands →
        ∀ c ∈ cands, c.1 ∈ catalog.map Product.id) →
      (∀ s f, ∀ c ∈ lexSearch s f, c.1 ∈ catalog.map Product.id) →
      ((((List.range ((searchEngine catalog embed vecSearch lexSearch cfg
          { q with page := 1 }).pages)).flatMap
          (fun i => (searchEngine catalog embed vecSearch lexSearch cfg
            { q with page := i + 1 }).products)).map Product.id).Nodup ∧
        ((List.range ((searchEngine catalog embed vecSearch lexSearch cfg
          { q with page := 1 }).pages)).flatMap
          (fun i => (searchEngine catalog embed vecSearch lexSearch cfg
            { q with page := i + 1 }).products)).length =
          (searchEngine catalog embed vecSearch lexSearch cfg { q with page := 1 }).total ∧
        ∀ p l, (searchEngine catalog embed vecSearch lexSearch cfg
            { q with page := p, limit := l }).total =
          (searchEngine catalog embed vecSearch lexSearch cfg { q with page := 1 }).total) := by
  intro catalog embed vecSearch lexSearch cfg q hnd hl hvc hlc
  obtain ⟨T, C, hTC, hndC, hall⟩ :=
    searchEngine_canonical catalog embed vecSearch lexSearch cfg q hnd hvc hlc
  have h1 : searchEngine catalog embed vecSearch lexSearch cfg { q with page := 1 } =
      finishStage q.sort 1 q.limit T C := hall 1 q.limit
  have h2 : (fun i => (searchEngine catalog embed vecSearch lexSearch cfg
        { q with page := i + 1 }).products) =
      (fun i => (finishStage q.sort (i + 1) q.limit T C).products) :=
    funext fun i => by rw [hall (i + 1) q.limit]
  rw [h1, h2]
  obtain ⟨hA, hB⟩ := finish_paging q.sort q.limit T C hl hTC hndC
  refine ⟨hA, hB, ?_⟩
  intro p l
  rw [hall p l]
  rfl

/-- Witness for C4 at a concrete input: the query "Milk" over the concrete
catalog (distinct identifiers) with page size 10, the vector source failing
and the lexical source empty. -/
theorem paging_completeness_spot :
    ((((List.range ((searchEngine dairyCatalog embedOne vecNone lexNone defaultConfig
        { qMilk with page := 1 }).pages)).flatMap
        (fun i => (searchEngine dairyCatalog embedOne vecNone lexNone defaultConfig
          { qMilk with page := i + 1 }).products)).map Product.id).Nodup ∧
      ((List.range ((searchEngine dairyCatalog embedOne vecNone lexNone defaultConfig
        { qMilk with page := 1 }).pages)).flatMap
        (fun i => (searchEngine dairyCatalog embedOne vecNone lexNone defaultConfig
          { qMilk with page := i + 1 }).products)).length =
        (searchEngine dairyCatalog embedOne vecNone lexNone defaultConfig
          { qMilk with page := 1 }).total ∧
      ∀ p l, (searchEngine dairyCatalog embedOne vecNone lexNone defaultConfig
          { qMilk with page := p, limit := l }).total =
        (searchEngine dairyCatalog embedOne vecNone lexNone defaultConfig
          { qMilk with page := 1 }).total) :=
  paging_completeness dairyCatalog embedOne vecNone lexNone defaultConfig qMilk
    (by decide) (by decide)
    (fun x f cands h => by simp [vecNone] at h)
    (fun s f c hc => by simp [lexNone] at hc)

/-- C5: a request whose page number lies beyond the available range for its
match set is still served successfully: the product list is empty and
`total` still equals the true match count (the total of page 1), not an
error. -/
theorem page_beyond_range :
    ∀ (catalog : List Product)
      (embed : String → Option (List ℚ))
      (vecSearch : List ℚ → Filters → Option (List (Nat × ℚ)))
      (lexSearch : String → Filters → List (Nat × ℚ))
      (cfg : Config) (q : Query) (p : Nat),
      0 < q.limit →
      (searchEngine catalog embed vecSearch lexSearch cfg { q with page := p }).pages < p →
      (searchEngine catalog embed vecSearch lexSearch cfg { q with page := p }).products = [] ∧
      (searchEngine catalog embed vecSearch lexSearch cfg { q with page := p }).total =
        (searchEngine catalog embed vecSearch lexSearch cfg { q with page := 1 }).total := by
  intro catalog embed vecSearch lexSearch cfg q p hl hp
  obtain ⟨T, C, hTC, hall⟩ :=
    searchEngine_canonical_weak catalog embed vecSearch lexSearch cfg q
  rw [hall p q.limit] at hp ⊢
  rw [hall 1 q.limit]
  have hp' : (T + q.limit - 1) / q.limit < p := hp
  constructor
  · show (((sortCandidates q.sort C).drop ((p - 1) * q.limit)).take q.limit).map
      Prod.fst = []
    have hlen : (sortCandidates q.sort C).length ≤ (p - 1) * q.limit := by
      rw [(sortCandidates_perm q.sort C).length_eq]
      calc C.length ≤ T := hTC
        _ ≤ ((T + q.limit - 1) / q.limit) * q.limit := le_pages_mul T q.limit hl
        _ ≤ (p - 1) * q.limit :=
          Nat.mul_le_mul_right q.limit (Nat.le_sub_one_of_lt hp')
    rw [List.drop_eq_nil_of_le hlen, List.take_nil]
    rfl
  · rfl

/-- Witness for C5 at a concrete input: page 9 with page size 1 over the
four-product catalog (4 pages available). -/
theorem page_beyond_range_spot :
    (searchEngine dairyCatalog embedNone vecNone lexNone defaultConfig
      { qBeyond with page := 9 }).products = [] ∧
    (searchEngine dairyCatalog embedNone vecNone lexNone defaultConfig
      { qBeyond with page := 9 }).total =
      (searchEngine dairyCatalog embedNone vecNone lexNone defaultConfig
        { qBeyond with page := 1 }).total :=
  page_beyond_range dairyCatalog embedNone vecNone lexNone defaultConfig qBeyond 9
    (by decide) (by decide)
